import Mathlib

/-!
Shallow embedding of the connection/session lifecycle and node-selection
logic of the Lavalink client (src/lavalink/node.py), together with proofs
of the spec claims about it.

The module-level dict `_nodes : Dict[Node, List[int]]` is modelled as an
insertion-ordered association list of registry entries.  Python dicts
iterate in insertion (registration) order, which is what the source loop
in `get_node` relies on for its tie-breaking behaviour.
-/

/-- One entry of the module-level registry `_nodes`: the key is a `Node`
object (identified here by `nid`), whose readiness flag `node.ready.is_set()`
is `ready`, and the value `_nodes[node]` is the list `guilds` of guild ids
currently assigned to that node. -/
structure RegEntry where
  nid : Nat
  ready : Bool
  guilds : List Nat
deriving DecidableEq, Repr

/-- The two `IndexError` raise sites of `get_node` (node.py lines 397 and
410). Both raise the same Python exception class, `IndexError`, but with
distinct message strings (see `errMessage`). -/
inductive GetNodeErr
  | noNodesInstantiated
  | noNodesFound
deriving DecidableEq, Repr

/-- The message string of each raise site of `get_node`. -/
def errMessage : GetNodeErr → String
  | .noNodesInstantiated => "no Nodes have been instantiated"
  | .noNodesFound => "No nodes found."

/-- The Python exception class raised at each error site of `get_node`:
both sites raise `IndexError`. -/
def errClass : GetNodeErr → String
  | _ => "IndexError"

/-- Result of the `for node, guild_ids in _nodes.items():` loop inside
`get_node` (node.py lines 399 to 407): either an early `return node`
because the queried guild id was found in a ready node (`sticky`), or fall
through with the final value of the local `least_used` (`done`). -/
inductive LoopOut
  | sticky (nid : Nat)
  | done (least : Option Nat)
deriving DecidableEq, Repr

/-- The loop of `get_node`, threading the locals `guild_count` (`cnt`) and
`least_used` (`least`).  Per iteration: a node whose ready event is not set
is skipped (`continue`); otherwise, if its assignment count is strictly
below the running minimum, `guild_count` and `least_used` are updated; then
if the queried guild id is in its list, the node is returned.  (In the
source the update happens textually before the membership return; both are
kept here, the update being discarded on the sticky return exactly as the
local variables are in Python.) -/
def getNodeLoop (gid : Nat) : List RegEntry → Nat → Option Nat → LoopOut
  | [], _, least => .done least
  | e :: rest, cnt, least =>
    if e.ready = false then
      getNodeLoop gid rest cnt least
    else
      let cnt2 := if e.guilds.length < cnt then e.guilds.length else cnt
      let least2 := if e.guilds.length < cnt then some e.nid else least
      if gid ∈ e.guilds then .sticky e.nid
      else getNodeLoop gid rest cnt2 least2

/-- The final `_nodes[least_used].append(guild_id)` of `get_node`: append
`gid` to the guild list of the entry keyed by `lu`.  Dict keys are unique,
so the first (only) entry with that key receives the append. -/
def appendGuild : List RegEntry → Nat → Nat → List RegEntry
  | [], _, _ => []
  | e :: rest, lu, gid =>
    if e.nid = lu then { e with guilds := e.guilds ++ [gid] } :: rest
    else e :: appendGuild rest lu gid

/-- Model of `get_node(guild_id)` (node.py lines 374 to 413).  `guild_count` starts
at the float literal `1e10`, which equals `10 ^ 10` exactly; the comparison
`len(guild_ids) < 1e10` on Python ints of this magnitude is exact, so it is
modelled as the Nat comparison against `10 ^ 10`.  On success the function
returns the chosen node id together with the registry as it stands after
the call (unchanged on the sticky path, appended on the fresh path). -/
def get_node (gid : Nat) (reg : List RegEntry) : Except GetNodeErr (Nat × List RegEntry) :=
  if reg.isEmpty then .error .noNodesInstantiated
  else
    match getNodeLoop gid reg (10 ^ 10) none with
    | .sticky nid => .ok (nid, reg)
    | .done none => .error .noNodesFound
    | .done (some lu) => .ok (lu, appendGuild reg lu gid)

instance instDecEqExcept {ε α : Type} [DecidableEq ε] [DecidableEq α] :
    DecidableEq (Except ε α)
  | .ok a, .ok b => decidable_of_iff (a = b) (by simp)
  | .error a, .error b => decidable_of_iff (a = b) (by simp)
  | .ok _, .error _ => isFalse (fun hc => by cases hc)
  | .error _, .ok _ => isFalse (fun hc => by cases hc)

/-!
Connection session lifecycle (class `Node` in node.py).  Frames are
abstracted as natural numbers; `ws : Option Bool` models `self._ws`
(`none` is `None`, `some b` is a socket object with `open` equal to `b`).
The field `assigned` models this sessions own entry in the module
registry `_nodes` (`none` when the session is not a key of `_nodes`).
The listener task handle is not modelled: the claims below concern the
sequential state protocol, not task scheduling.
-/

/-- State of one `Node` session object plus its slice of the registry. -/
structure SessionState where
  isShutdown : Bool
  ready : Bool
  ws : Option Bool
  queue : List Nat
  players : List Nat
  assigned : Option (List Nat)
deriving DecidableEq, Repr

/-- Freshly constructed session (`Node.__init__`): ready event unset,
no socket, empty queue, empty player set, not registered. -/
def sessionInit : SessionState :=
  { isShutdown := false, ready := false, ws := none
    queue := [], players := [], assigned := none }

/-- Observable events of a session: frames written to the wire, frames
appended to the outbound queue, the socket close, player destruction, and
the readiness flag being set. -/
inductive Ev
  | transmit (frame : Nat)
  | enqueue (frame : Nat)
  | wsClose
  | destroyPlayer (p : Nat)
  | readySet
deriving DecidableEq, Repr

/-- Model of `Node.send` (node.py lines 317 to 322): when `self._ws is None or not
self._ws.open`, append the frame to `self._queue`; otherwise transmit it
on the socket. -/
def send (s : SessionState) (f : Nat) : SessionState × List Ev :=
  match s.ws with
  | some true => (s, [Ev.transmit f])
  | _ => ({ s with queue := s.queue ++ [f] }, [Ev.enqueue f])

/-- The `for data in self._queue: await self.send(data)` loop of
`Node.connect` (node.py lines 209 to 210), iterating over the queue as it
stood when the loop started.  The socket is open at this point, so `send`
transmits and never mutates the queue, making the snapshot iteration equal
to the live one. -/
def flushQueue : SessionState → List Nat → SessionState × List Ev
  | s, [] => (s, [])
  | s, f :: rest =>
    let r1 := send s f
    let r2 := flushQueue r1.1 rest
    (r2.1, r1.2 ++ r2.2)

/-- Outcome of a `Node.connect` call: returned normally, or raised
`asyncio.TimeoutError` (node.py line 202). -/
inductive ConnectOutcome
  | ok
  | timeoutRaised
deriving DecidableEq, Repr

/-- Model of `Node.connect` (node.py lines 170 to 212) with the endpoint race
abstracted by `raceOk` (see `raceResult` below for the race itself).
First statement: `self._is_shutdown = False`.  If the race yields an open
socket: `self._ws` is the open socket (set inside `_multi_try_connect`),
the session is registered with a fresh empty assignment list
(`_nodes[self] = []`), the buffered queue is flushed through `send`, and
only then is `self.ready.set()` executed.  The queue is not cleared after
the flush, exactly as in the source.  If the race fails, the
`asyncio.TimeoutError` raise skips all of that. -/
def connect (s : SessionState) (raceOk : Bool) : SessionState × List Ev × ConnectOutcome :=
  let s0 := { s with isShutdown := false }
  if raceOk then
    let s1 := { s0 with ws := some true, assigned := some [] }
    let fr := flushQueue s1 s1.queue
    ({ fr.1 with ready := true }, fr.2 ++ [Ev.readySet], ConnectOutcome.ok)
  else
    (s0, [], ConnectOutcome.timeoutRaised)

/-- Model of `Node.disconnect` (node.py lines 301 to 315): set the shutdown flag,
clear readiness, close the socket when it is open, destroy every player in
`self._players` (the `while self._players: await self._players.pop().destroy()`
loop), and remove the session from `_nodes` (`_nodes.pop(self, None)`). -/
def disconnect (s : SessionState) : SessionState × List Ev :=
  let s1 := { s with isShutdown := true, ready := false }
  let s2 := if s1.ws = some true then { s1 with ws := some false } else s1
  let closeEvs := if s1.ws = some true then [Ev.wsClose] else []
  let destroyEvs := s2.players.map Ev.destroyPlayer
  ({ s2 with players := [], assigned := none }, closeEvs ++ destroyEvs)

/-- Model of `Node._reconnect` (node.py lines 286 to 299): clear readiness, then
return without reconnecting when the shutdown flag is set, otherwise call
`self.connect()`.  The boolean reports whether `connect` is invoked. -/
def reconnectStep (s : SessionState) : SessionState × Bool :=
  let s1 := { s with ready := false }
  if s1.isShutdown then (s1, false) else (s1, true)

/-!
The endpoint race of `Node.connect` and the per-endpoint attempt loop
`Node._multi_try_connect` (node.py lines 195 to 202 and 226 to 240).
-/

/-- What one iteration of the `while` loop in `_multi_try_connect`
observes: the loop guard `self._is_shutdown is False and (self._ws is None
or not self._ws.open)` evaluating to false (`loopExit`), or
`websockets.connect` returning an open socket (`success`), raising
`OSError` (`oserror`), or raising `websockets.InvalidStatusCode`
(`invalidStatus`). -/
inductive AttemptOutcome
  | success
  | oserror
  | invalidStatus
  | loopExit
deriving DecidableEq, Repr

/-- Result of `_multi_try_connect` on a finite prefix of iteration
outcomes: it returned the open socket after `attempts` tries, returned
`None` (on `InvalidStatusCode` or on the loop guard turning false, both of
which Python reports as `None`), or is still inside the retry loop after
consuming the whole prefix (`pending`). -/
inductive MTCResult
  | connected (attempts : Nat)
  | returnedNone (attempts : Nat)
  | pending
deriving DecidableEq, Repr

/-- Model of `Node._multi_try_connect` (node.py lines 226 to 240) over a list of
iteration outcomes.  `attempt` is the local retry counter, starting at 1;
an `OSError` sleeps for the next `ExponentialBackoff` delay (the delay
value is produced by an external utility and does not influence control
flow), increments the counter and retries; an `InvalidStatusCode` returns
`None` at once; the loop guard turning false falls out of the loop,
returning `None`. -/
def multiTryConnect (attempt : Nat) : List AttemptOutcome → MTCResult
  | [] => .pending
  | AttemptOutcome.loopExit :: _ => .returnedNone attempt
  | AttemptOutcome.success :: _ => .connected attempt
  | AttemptOutcome.invalidStatus :: _ => .returnedNone attempt
  | AttemptOutcome.oserror :: rest => multiTryConnect (attempt + 1) rest

def isConnected : MTCResult → Bool
  | .connected _ => true
  | _ => false

def isReturnedNone : MTCResult → Bool
  | .returnedNone _ => true
  | _ => false

def isPending : MTCResult → Bool
  | .pending => true
  | _ => false

/-- Outcome of the `for task in asyncio.as_completed(tasks, timeout=timeout)`
race in `Node.connect`: broke out with an open socket, raised
`asyncio.TimeoutError` (the `for`/`else` at node.py lines 197 to 202), or
blocks forever awaiting a task that never completes (possible only when no
timeout was supplied). -/
inductive RaceOutcome
  | success
  | timeoutError
  | blocksForever
deriving DecidableEq, Repr

/-- The race of `Node.connect` over the two `_multi_try_connect` tasks.
`r1` and `r2` are the results each task reaches within the timeout window
(within all time, when `hasTimeout` is false); `pending` means the task
has not completed by then.  A task completing with an open socket makes
the `if await task:` break fire.  A task completing with `None` is falsy,
so the loop continues.  When the deadline fires, each remaining
`as_completed` item raises `asyncio.TimeoutError` on await, which the
`contextlib.suppress(Exception)` swallows, so the loop simply runs out of
items; a loop that runs out of items without breaking hits the `else:` and
raises `asyncio.TimeoutError` — including when both tasks completed with
`None` and no timeout was supplied at all. -/
def raceResult (hasTimeout : Bool) (r1 r2 : MTCResult) : RaceOutcome :=
  if isConnected r1 || isConnected r2 then .success
  else if isPending r1 || isPending r2 then
    (if hasTimeout then .timeoutError else .blocksForever)
  else .timeoutError

/-!
Remaining definitions used by the claim statements.
-/

/-- Event trace of the scenario: two `send` calls on a fresh disconnected
session (frames 1 and 2), then a successful `connect`, a `disconnect`, and
a second successful `connect`. -/
def c1Trace : List Ev :=
  let r1 := send sessionInit 1
  let r2 := send r1.1 2
  let r3 := connect r2.1 true
  let r4 := disconnect r3.1
  let r5 := connect r4.1 true
  r1.2 ++ r2.2 ++ r3.2.1 ++ r4.2 ++ r5.2.1

/-- The registry binds workID `w` to exactly the node `n`, and that node
is ready: some entry with key `n` is ready and holds `w`, and every entry
holding `w` has key `n` and is ready. -/
def readyOwner (reg : List RegEntry) (w n : Nat) : Prop :=
  (∃ e ∈ reg, e.nid = n ∧ e.ready = true ∧ w ∈ e.guilds) ∧
  ∀ e ∈ reg, w ∈ e.guilds → (e.nid = n ∧ e.ready = true)

instance (reg : List RegEntry) (w n : Nat) : Decidable (readyOwner reg w n) := by
  unfold readyOwner; infer_instance

/-- Specification of what the `least_used` scan of `get_node` computes on
the fresh-assignment path: the first entry that is ready and whose
assignment count is strictly below `cnt` and minimal among the ready
entries of the whole list. -/
def firstMinReady : List RegEntry → Nat → Option RegEntry
  | [], _ => none
  | e :: rest, cnt =>
    if e.ready = true ∧ e.guilds.length < cnt then
      match firstMinReady rest e.guilds.length with
      | none => some e
      | some r => some r
    else firstMinReady rest cnt

/-!
Helper lemmas about the session lifecycle.
-/

lemma flushQueue_open (l : List Nat) : ∀ (s : SessionState), s.ws = some true →
    flushQueue s l = (s, l.map Ev.transmit) := by
  induction l with
  | nil => intro s _; rfl
  | cons f rest ih =>
    intro s hws
    simp only [flushQueue, send, hws, List.map_cons]
    rw [ih s hws]
    simp

lemma connect_true_eq (s : SessionState) :
    connect s true =
      ({ s with isShutdown := false, ready := true, ws := some true, assigned := some [] },
        s.queue.map Ev.transmit ++ [Ev.readySet], ConnectOutcome.ok) := by
  simp only [connect, if_pos]
  rw [flushQueue_open s.queue _ rfl]

lemma connect_false_eq (s : SessionState) :
    connect s false = ({ s with isShutdown := false }, [], ConnectOutcome.timeoutRaised) := rfl

lemma multiTryConnect_replicate (l : List AttemptOutcome) :
    ∀ (n a : Nat), multiTryConnect a (List.replicate n AttemptOutcome.oserror ++ l) =
      multiTryConnect (a + n) l := by
  intro n
  induction n with
  | zero => intro a; simp
  | succ k ih =>
    intro a
    simp only [List.replicate_succ, List.cons_append, multiTryConnect, List.append_eq]
    rw [ih (a + 1)]
    congr 1
    omega

/-!
Claim theorems about the session lifecycle and the connect race.
-/

/-- C1: the spec claims frames sent while disconnected are transmitted
after reconnect in call order, each exactly once, including across a
second disconnect/reconnect cycle.  The code flushes `self._queue` on
connect but never clears it, so the scenario send 1, send 2, connect,
disconnect, connect transmits each frame twice: the second connect
retransmits the stale queue contents. -/
theorem connect_retransmits_queued_frames :
    c1Trace = [Ev.enqueue 1, Ev.enqueue 2, Ev.transmit 1, Ev.transmit 2, Ev.readySet,
      Ev.wsClose, Ev.transmit 1, Ev.transmit 2, Ev.readySet] ∧
    c1Trace.count (Ev.transmit 1) = 2 ∧ c1Trace.count (Ev.transmit 2) = 2 := by
  decide

/-- C3: a successful `connect` emits exactly the FIFO transmission of every
frame buffered in the outbound queue, followed by the readiness flag being
set; readiness is set only after the backlog flush completes, and the
post-state has the readiness flag raised. -/
theorem connect_sets_ready_only_after_flush (s : SessionState) :
    (connect s true).2.1 = s.queue.map Ev.transmit ++ [Ev.readySet] ∧
    ((connect s true).1).ready = true := by
  rw [connect_true_eq]
  exact ⟨rfl, rfl⟩

/-- C9: `connect` resets the shutdown flag as its first step (even when the
race then fails), so a session shut down by `disconnect` is resurrected by
a later explicit `connect`, and its automatic reconnect path in
`_reconnect` is active again (the reconnect step does invoke `connect`). -/
theorem connect_resets_shutdown_flag (s : SessionState) (ok : Bool) :
    ((connect (disconnect s).1 ok).1).isShutdown = false ∧
    (reconnectStep ((connect (disconnect s).1 ok).1)).2 = true := by
  cases ok
  · rw [connect_false_eq]; exact ⟨rfl, rfl⟩
  · rw [connect_true_eq]; exact ⟨rfl, rfl⟩

/-- C8: `disconnect` removes the session from the registry, leaves no
player bound to it, destroys every player that was assigned at disconnect
time, and a second `disconnect` changes nothing and destroys nothing. -/
theorem disconnect_unregisters_destroys_idempotent (s : SessionState) :
    ((disconnect s).1).assigned = none ∧ ((disconnect s).1).players = [] ∧
    (∀ p ∈ s.players, Ev.destroyPlayer p ∈ (disconnect s).2) ∧
    disconnect (disconnect s).1 = ((disconnect s).1, []) := by
  by_cases h : s.ws = some true <;>
    simp [disconnect, h]

/-- C5: in `_multi_try_connect`, transient `OSError` failures are retried
(the attempt counter advancing by one per retry) and are never surfaced:
any number of them leaves the loop still retrying, and a later successful
attempt returns the socket.  An `InvalidStatusCode` handshake rejection
returns `None` at once, whatever outcomes would have followed: no retry
happens after it. -/
theorem multiTryConnect_retry_and_abort :
    (∀ n, multiTryConnect 1 (List.replicate n AttemptOutcome.oserror) = MTCResult.pending) ∧
    (∀ a rest, multiTryConnect a (AttemptOutcome.invalidStatus :: rest) =
      MTCResult.returnedNone a) ∧
    (∀ n rest, multiTryConnect 1
      (List.replicate n AttemptOutcome.oserror ++ AttemptOutcome.invalidStatus :: rest) =
      MTCResult.returnedNone (1 + n)) ∧
    (∀ n rest, multiTryConnect 1
      (List.replicate n AttemptOutcome.oserror ++ AttemptOutcome.success :: rest) =
      MTCResult.connected (1 + n)) := by
  refine ⟨fun n => ?_, fun a rest => rfl, fun n rest => ?_, fun n rest => ?_⟩
  · have h := multiTryConnect_replicate [] n 1
    simpa using h
  · rw [multiTryConnect_replicate _ n 1]; rfl
  · rw [multiTryConnect_replicate _ n 1]; rfl

/-- C6 counterexample: with no timeout supplied and both endpoint attempts
completing unsuccessfully (both return `None`, neither still pending, so no
time budget was exhausted), `connect` nevertheless raises
`asyncio.TimeoutError` through its `for`/`else` clause. -/
theorem raceResult_timeout_without_deadline :
    raceResult false (MTCResult.returnedNone 1) (MTCResult.returnedNone 1) =
      RaceOutcome.timeoutError ∧
    isPending (MTCResult.returnedNone 1) = false := by
  exact ⟨rfl, rfl⟩

/-- C6 amended: `connect` raises Timeout exactly when no attempt yields an
open socket and either a timeout was supplied (and the window closed on the
still-pending attempts) or every attempt completed returning `None` — the
latter occurs even with no timeout supplied.  With no timeout and an
attempt still retrying, `connect` blocks instead of raising.  When the race
fails, the session state is left unregistered and not ready: only the
shutdown flag was touched. -/
theorem raceResult_timeout_characterization :
    (∀ (ht : Bool) (r1 r2 : MTCResult),
      raceResult ht r1 r2 = RaceOutcome.timeoutError ↔
        ((isConnected r1 = false ∧ isConnected r2 = false) ∧
          (ht = true ∨ (isReturnedNone r1 = true ∧ isReturnedNone r2 = true)))) ∧
    (∀ s : SessionState,
      connect s false = ({ s with isShutdown := false }, [], ConnectOutcome.timeoutRaised)) := by
  refine ⟨fun ht r1 r2 => ?_, fun s => rfl⟩
  cases r1 <;> cases r2 <;> cases ht <;>
    simp [raceResult, isConnected, isPending, isReturnedNone]

/-!
Helper lemmas about `get_node`.
-/

lemma getNodeLoop_sticky (g : Nat) :
    ∀ (reg : List RegEntry) (cnt : Nat) (least : Option Nat),
      (∃ e ∈ reg, e.ready = true ∧ g ∈ e.guilds) →
      ∃ nid, getNodeLoop g reg cnt least = .sticky nid ∧
        ∃ e ∈ reg, e.nid = nid ∧ e.ready = true ∧ g ∈ e.guilds := by
  intro reg
  induction reg with
  | nil =>
    intro cnt least h
    obtain ⟨e, he, _⟩ := h
    exact absurd he (List.not_mem_nil e)
  | cons e rest ih =>
    intro cnt least h
    by_cases hr : e.ready = false
    · obtain ⟨w, hw, hwr, hwg⟩ := h
      rcases List.mem_cons.mp hw with rfl | hwrest
      · rw [hwr] at hr; exact absurd hr (by simp)
      · obtain ⟨nid, hloop, e2, he2, hp⟩ := ih cnt least ⟨w, hwrest, hwr, hwg⟩
        refine ⟨nid, ?_, e2, List.mem_cons_of_mem _ he2, hp⟩
        simp only [getNodeLoop, if_pos hr]
        exact hloop
    · have hrt : e.ready = true := by simpa using hr
      by_cases hm : g ∈ e.guilds
      · refine ⟨e.nid, ?_, e, List.mem_cons_self _ _, rfl, hrt, hm⟩
        simp only [getNodeLoop, if_neg hr, if_pos hm]
      · obtain ⟨w, hw, hwr, hwg⟩ := h
        rcases List.mem_cons.mp hw with rfl | hwrest
        · exact absurd hwg hm
        · obtain ⟨nid, hloop, e2, he2, hp⟩ := ih _ _ ⟨w, hwrest, hwr, hwg⟩
          refine ⟨nid, ?_, e2, List.mem_cons_of_mem _ he2, hp⟩
          simp only [getNodeLoop, if_neg hr, if_neg hm]
          exact hloop

lemma readyOwner_tail {e : RegEntry} {rest : List RegEntry} {w n : Nat}
    (h : readyOwner (e :: rest) w n) (hm : w ∉ e.guilds) : readyOwner rest w n := by
  obtain ⟨⟨ew, hew, hp⟩, hall⟩ := h
  refine ⟨?_, fun x hx hxg => hall x (List.mem_cons_of_mem _ hx) hxg⟩
  rcases List.mem_cons.mp hew with rfl | h2
  · exact absurd hp.2.2 hm
  · exact ⟨ew, h2, hp⟩

lemma getNodeLoop_owner (w n : Nat) :
    ∀ (reg : List RegEntry) (cnt : Nat) (least : Option Nat),
      readyOwner reg w n → getNodeLoop w reg cnt least = .sticky n := by
  intro reg
  induction reg with
  | nil =>
    intro cnt least h
    obtain ⟨⟨e, he, _⟩, _⟩ := h
    exact absurd he (List.not_mem_nil e)
  | cons e rest ih =>
    intro cnt least h
    by_cases hm : w ∈ e.guilds
    · have hp := h.2 e (List.mem_cons_self _ _) hm
      have hr : ¬ (e.ready = false) := by simp [hp.2]
      simp only [getNodeLoop, if_neg hr, if_pos hm, hp.1]
    · by_cases hr : e.ready = false
      · simp only [getNodeLoop, if_pos hr]
        exact ih _ _ (readyOwner_tail h hm)
      · simp only [getNodeLoop, if_neg hr, if_neg hm]
        exact ih _ _ (readyOwner_tail h hm)

lemma isEmpty_false_of_mem {reg : List RegEntry} {e : RegEntry} (he : e ∈ reg) :
    reg.isEmpty = false := by
  cases reg
  · exact absurd he (List.not_mem_nil e)
  · rfl

lemma get_node_of_readyOwner {reg : List RegEntry} {w n : Nat} (h : readyOwner reg w n) :
    get_node w reg = .ok (n, reg) := by
  obtain ⟨e, he, -⟩ := h.1
  have hie := isEmpty_false_of_mem he
  simp only [get_node, hie, Bool.false_eq_true, if_false,
    getNodeLoop_owner w n reg _ _ h]

lemma getNodeLoop_all_unready (g : Nat) :
    ∀ (reg : List RegEntry) (cnt : Nat) (least : Option Nat),
      (∀ e ∈ reg, e.ready = false) → getNodeLoop g reg cnt least = .done least := by
  intro reg
  induction reg with
  | nil => intro cnt least _; rfl
  | cons e rest ih =>
    intro cnt least h
    have hr := h e (List.mem_cons_self _ _)
    simp only [getNodeLoop, if_pos hr]
    exact ih cnt least (fun x hx => h x (List.mem_cons_of_mem _ hx))

/-!
Claim theorems about `get_node`.
-/

/-- C2 counterexample: the claim says a workID bound to a session stays
bound while that session is not ready and that a lookup then surfaces the
no-ready-nodes condition, and that a workID appears in at most one
assignment set.  On the registry where node 0 is not ready and holds guild
7 while node 1 is ready and empty, `get_node 7` rebinds guild 7 to node 1
and returns it, leaving 7 in both assignment sets. -/
theorem get_node_rebinds_guild_of_unready_node :
    get_node 7 [⟨0, false, [7]⟩, ⟨1, true, []⟩] =
      Except.ok (1, [⟨0, false, [7]⟩, ⟨1, true, [7]⟩]) ∧
    (∃ e ∈ ([⟨0, false, [7]⟩, ⟨1, true, []⟩] : List RegEntry), e.nid = 0 ∧ 7 ∈ e.guilds) ∧
    (∃ e ∈ ([⟨0, false, [7]⟩, ⟨1, true, [7]⟩] : List RegEntry), e.nid = 0 ∧ 7 ∈ e.guilds) ∧
    (∃ e ∈ ([⟨0, false, [7]⟩, ⟨1, true, [7]⟩] : List RegEntry), e.nid = 1 ∧ 7 ∈ e.guilds) := by
  decide

/-- C2 amended: assignment is sticky while the owning session is ready:
whenever the registry binds `w` to exactly one node `n` and that node is
ready, `get_node` returns `n` and leaves the registry unchanged, whatever
the load of the other sessions — so two calls against two such registries
(for example, before and after the load of every other session changed)
both return `n`.  When the owning session is not ready, the code instead
rebinds `w` to the least-loaded ready session when one exists (see the
counterexample) and surfaces the no-ready-nodes error only when no session
is ready. -/
theorem get_node_sticky_for_ready_owner (reg1 reg2 : List RegEntry) (w n : Nat)
    (h1 : readyOwner reg1 w n) (h2 : readyOwner reg2 w n) :
    get_node w reg1 = Except.ok (n, reg1) ∧ get_node w reg2 = Except.ok (n, reg2) :=
  ⟨get_node_of_readyOwner h1, get_node_of_readyOwner h2⟩

theorem get_node_sticky_for_ready_owner_witness :
    get_node 5 [⟨0, true, [5]⟩, ⟨1, true, []⟩] =
      Except.ok (0, [⟨0, true, [5]⟩, ⟨1, true, []⟩]) ∧
    get_node 5 [⟨0, true, [5]⟩, ⟨1, true, [1, 2, 3]⟩] =
      Except.ok (0, [⟨0, true, [5]⟩, ⟨1, true, [1, 2, 3]⟩]) :=
  get_node_sticky_for_ready_owner _ _ 5 0 (by decide) (by decide)

/-- C4: `get_node` on the empty registry fails with the
no-nodes-instantiated error, on a non-empty registry where no session is
ready it fails with the distinct no-nodes-found error, and the two error
values (and their message strings) differ, so a caller can tell them
apart. -/
theorem get_node_error_distinction :
    (∀ g, get_node g [] = Except.error GetNodeErr.noNodesInstantiated) ∧
    (∀ (g : Nat) (reg : List RegEntry), reg ≠ [] → (∀ e ∈ reg, e.ready = false) →
      get_node g reg = Except.error GetNodeErr.noNodesFound) ∧
    GetNodeErr.noNodesInstantiated ≠ GetNodeErr.noNodesFound ∧
    errMessage GetNodeErr.noNodesInstantiated ≠ errMessage GetNodeErr.noNodesFound := by
  refine ⟨fun g => rfl, fun g reg hne hall => ?_, by decide, by decide⟩
  have hie : reg.isEmpty = false := by
    cases reg
    · exact absurd rfl hne
    · rfl
  simp only [get_node, hie, Bool.false_eq_true, if_false,
    getNodeLoop_all_unready g reg _ _ hall]

theorem get_node_error_distinction_witness :
    get_node 0 [] = Except.error GetNodeErr.noNodesInstantiated ∧
    get_node 3 [⟨0, false, [3]⟩] = Except.error GetNodeErr.noNodesFound :=
  ⟨get_node_error_distinction.1 0,
   get_node_error_distinction.2.1 3 [⟨0, false, [3]⟩] (by decide) (by decide)⟩

/-- C10: when the queried guild id is present in the assignment set of a
ready node, `get_node` returns such a node and the registry is returned
unchanged — a sticky lookup mutates nothing. -/
theorem get_node_sticky_lookup_preserves_registry (g : Nat) (reg : List RegEntry)
    (h : ∃ e ∈ reg, e.ready = true ∧ g ∈ e.guilds) :
    ∃ nid, get_node g reg = Except.ok (nid, reg) ∧
      ∃ e ∈ reg, e.nid = nid ∧ e.ready = true ∧ g ∈ e.guilds := by
  obtain ⟨nid, hloop, hwit⟩ := getNodeLoop_sticky g reg (10 ^ 10) none h
  obtain ⟨e, he, _⟩ := h
  refine ⟨nid, ?_, hwit⟩
  simp only [get_node, isEmpty_false_of_mem he, Bool.false_eq_true, if_false, hloop]

theorem get_node_sticky_lookup_preserves_registry_witness :
    ∃ nid, get_node 4 [⟨0, true, [4]⟩, ⟨1, true, []⟩] =
        Except.ok (nid, [⟨0, true, [4]⟩, ⟨1, true, []⟩]) ∧
      ∃ e ∈ ([⟨0, true, [4]⟩, ⟨1, true, []⟩] : List RegEntry),
        e.nid = nid ∧ e.ready = true ∧ 4 ∈ e.guilds :=
  get_node_sticky_lookup_preserves_registry 4 _ (by decide)

/-!
Characterization of the fresh-assignment path of `get_node` (claim C7).
-/

lemma getNodeLoop_fresh (g : Nat) :
    ∀ (reg : List RegEntry) (cnt : Nat) (least : Option Nat),
      (∀ e ∈ reg, g ∉ e.guilds) →
      getNodeLoop g reg cnt least =
        .done (match firstMinReady reg cnt with
          | some e => some e.nid
          | none => least) := by
  intro reg
  induction reg with
  | nil => intro cnt least _; rfl
  | cons e rest ih =>
    intro cnt least hfresh
    have hme : g ∉ e.guilds := hfresh e (List.mem_cons_self _ _)
    have hrest : ∀ x ∈ rest, g ∉ x.guilds := fun x hx => hfresh x (List.mem_cons_of_mem _ hx)
    by_cases hr : e.ready = false
    · have hc : ¬ (e.ready = true ∧ e.guilds.length < cnt) := by
        rintro ⟨h1, -⟩; rw [h1] at hr; exact absurd hr (by simp)
      simp only [getNodeLoop, if_pos hr, firstMinReady, if_neg hc]
      exact ih cnt least hrest
    · have hrt : e.ready = true := by simpa using hr
      by_cases hlt : e.guilds.length < cnt
      · have hc : e.ready = true ∧ e.guilds.length < cnt := ⟨hrt, hlt⟩
        simp only [getNodeLoop, if_neg hr, if_pos hlt, if_neg hme, firstMinReady, if_pos hc]
        rw [ih e.guilds.length (some e.nid) hrest]
        cases hfm : firstMinReady rest e.guilds.length <;> simp [hfm]
      · have hc : ¬ (e.ready = true ∧ e.guilds.length < cnt) := by
          rintro ⟨-, h2⟩; exact hlt h2
        simp only [getNodeLoop, if_neg hr, if_neg hlt, if_neg hme, firstMinReady, if_neg hc]
        exact ih cnt least hrest

lemma firstMinReady_none :
    ∀ (reg : List RegEntry) (cnt : Nat), firstMinReady reg cnt = none →
      ∀ e ∈ reg, e.ready = true → ¬ e.guilds.length < cnt := by
  intro reg
  induction reg with
  | nil =>
    intro cnt _ e he
    exact absurd he (List.not_mem_nil e)
  | cons a rest ih =>
    intro cnt hnone x hx hxr
    by_cases hc : a.ready = true ∧ a.guilds.length < cnt
    · exfalso
      simp only [firstMinReady, if_pos hc] at hnone
      cases hfm : firstMinReady rest a.guilds.length <;> simp [hfm] at hnone
    · simp only [firstMinReady, if_neg hc] at hnone
      rcases List.mem_cons.mp hx with rfl | hx2
      · intro hlt; exact hc ⟨hxr, hlt⟩
      · exact ih cnt hnone x hx2 hxr

lemma firstMinReady_some :
    ∀ (reg : List RegEntry) (cnt : Nat) (e : RegEntry), firstMinReady reg cnt = some e →
      e ∈ reg ∧ e.ready = true ∧ e.guilds.length < cnt ∧
      (∀ x ∈ reg, x.ready = true → e.guilds.length ≤ x.guilds.length) ∧
      ∃ pre post, reg = pre ++ e :: post ∧
        ∀ x ∈ pre, x.ready = true → e.guilds.length < x.guilds.length := by
  intro reg
  induction reg with
  | nil => intro cnt e h; cases h
  | cons a rest ih =>
    intro cnt e h
    by_cases hc : a.ready = true ∧ a.guilds.length < cnt
    · simp only [firstMinReady, if_pos hc] at h
      cases hfm : firstMinReady rest a.guilds.length with
      | none =>
        rw [hfm] at h
        injection h with hae
        subst hae
        have hmin : ∀ x ∈ rest, x.ready = true → a.guilds.length ≤ x.guilds.length := by
          intro x hx hxr
          have hnlt := firstMinReady_none rest a.guilds.length hfm x hx hxr
          omega
        refine ⟨List.mem_cons_self _ _, hc.1, hc.2, ?_, [], rest, rfl, ?_⟩
        · intro x hx hxr
          rcases List.mem_cons.mp hx with rfl | hx2
          · exact le_refl _
          · exact hmin x hx2 hxr
        · intro x hx
          exact absurd hx (List.not_mem_nil x)
      | some r =>
        rw [hfm] at h
        injection h with hre
        subst hre
        obtain ⟨hmem, hready, hlt, hmin, pre, post, hsplit, hpre⟩ := ih a.guilds.length r hfm
        refine ⟨List.mem_cons_of_mem _ hmem, hready, lt_trans hlt hc.2, ?_,
          a :: pre, post, by rw [hsplit]; rfl, ?_⟩
        · intro x hx hxr
          rcases List.mem_cons.mp hx with rfl | hx2
          · exact le_of_lt hlt
          · exact hmin x hx2 hxr
        · intro x hx hxr
          rcases List.mem_cons.mp hx with rfl | hx2
          · exact hlt
          · exact hpre x hx2 hxr
    · simp only [firstMinReady, if_neg hc] at h
      obtain ⟨hmem, hready, hlt, hmin, pre, post, hsplit, hpre⟩ := ih cnt e h
      have ha : a.ready = true → e.guilds.length < a.guilds.length := by
        intro har
        have hnlt : ¬ a.guilds.length < cnt := fun hl => hc ⟨har, hl⟩
        omega
      refine ⟨List.mem_cons_of_mem _ hmem, hready, hlt, ?_,
        a :: pre, post, by rw [hsplit]; rfl, ?_⟩
      · intro x hx hxr
        rcases List.mem_cons.mp hx with rfl | hx2
        · exact le_of_lt (ha hxr)
        · exact hmin x hx2 hxr
      · intro x hx hxr
        rcases List.mem_cons.mp hx with rfl | hx2
        · exact ha hxr
        · exact hpre x hx2 hxr

/-- C7 counterexample: the claim quantifies over every registry, but the
source initializes its running minimum to the sentinel `1e10`, so a ready
node holding `10 ^ 10` assigned guilds is never selectable: on a registry
whose only (ready) node carries `10 ^ 10` guilds, `get_node` on a fresh
guild id raises the no-nodes-found error instead of returning that
minimal-count ready node. -/
theorem get_node_sentinel_fails_at_huge_load :
    get_node 1 [⟨0, true, List.replicate (10 ^ 10) 99⟩] =
      Except.error GetNodeErr.noNodesFound ∧
    (⟨0, true, List.replicate (10 ^ 10) 99⟩ : RegEntry).ready = true := by
  refine ⟨?_, rfl⟩
  have hlt : ¬ ((List.replicate (10 ^ 10) 99).length < 10 ^ 10) := by
    rw [List.length_replicate]
    exact lt_irrefl _
  have hmem : (1 : Nat) ∉ List.replicate (10 ^ 10) 99 := by
    intro hm
    exact absurd (List.eq_of_mem_replicate hm) (by norm_num)
  have hloop : getNodeLoop 1 [⟨0, true, List.replicate (10 ^ 10) 99⟩] (10 ^ 10) none =
      .done none := by
    simp only [getNodeLoop,
      if_neg (show ¬ ((⟨0, true, List.replicate (10 ^ 10) 99⟩ : RegEntry).ready = false) by decide),
      if_neg hlt, if_neg hmem]
  simp only [get_node, List.isEmpty_cons, Bool.false_eq_true, if_false, hloop]

/-- C7 amended: provided every ready session carries fewer than `10 ^ 10`
assigned guilds (the sentinel bound the source compares against), a fresh
guild id is assigned to a ready session of minimal assignment count; among
ties the earliest-registered one is chosen (no ready session before it in
registration order has a count that small), and the id is appended to that
session's list. -/
theorem get_node_fresh_assign_least_used (g : Nat) (reg : List RegEntry)
    (hfresh : ∀ e ∈ reg, g ∉ e.guilds)
    (hready : ∃ e ∈ reg, e.ready = true)
    (hsmall : ∀ e ∈ reg, e.ready = true → e.guilds.length < 10 ^ 10) :
    ∃ e, e ∈ reg ∧ e.ready = true ∧
      get_node g reg = Except.ok (e.nid, appendGuild reg e.nid g) ∧
      (∀ x ∈ reg, x.ready = true → e.guilds.length ≤ x.guilds.length) ∧
      ∃ pre post, reg = pre ++ e :: post ∧
        ∀ x ∈ pre, x.ready = true → e.guilds.length < x.guilds.length := by
  obtain ⟨e0, he0, hr0⟩ := hready
  cases hfm : firstMinReady reg (10 ^ 10) with
  | none =>
    exact absurd (hsmall e0 he0 hr0) (firstMinReady_none reg _ hfm e0 he0 hr0)
  | some e =>
    obtain ⟨hmem, hready2, hlt2, hmin, pre, post, hsplit, hpre⟩ :=
      firstMinReady_some reg _ e hfm
    refine ⟨e, hmem, hready2, ?_, hmin, pre, post, hsplit, hpre⟩
    have hloop := getNodeLoop_fresh g reg (10 ^ 10) none hfresh
    rw [hfm] at hloop
    simp only [get_node, isEmpty_false_of_mem he0, Bool.false_eq_true, if_false, hloop]

theorem get_node_fresh_assign_least_used_witness :
    ∃ e, e ∈ ([⟨0, true, [9]⟩, ⟨1, true, []⟩] : List RegEntry) ∧ e.ready = true ∧
      get_node 5 [⟨0, true, [9]⟩, ⟨1, true, []⟩] =
        Except.ok (e.nid, appendGuild [⟨0, true, [9]⟩, ⟨1, true, []⟩] e.nid 5) ∧
      (∀ x ∈ ([⟨0, true, [9]⟩, ⟨1, true, []⟩] : List RegEntry), x.ready = true →
        e.guilds.length ≤ x.guilds.length) ∧
      ∃ pre post, ([⟨0, true, [9]⟩, ⟨1, true, []⟩] : List RegEntry) = pre ++ e :: post ∧
        ∀ x ∈ pre, x.ready = true → e.guilds.length < x.guilds.length :=
  get_node_fresh_assign_least_used 5 _ (by decide) (by decide) (by decide)

/-!
Witness instantiations for the remaining claim theorems, each applying the
theorem at a concrete input.
-/

theorem connect_sets_ready_only_after_flush_witness :
    (connect ⟨false, false, none, [1, 2], [], none⟩ true).2.1 =
      [Ev.transmit 1, Ev.transmit 2, Ev.readySet] ∧
    ((connect ⟨false, false, none, [1, 2], [], none⟩ true).1).ready = true :=
  connect_sets_ready_only_after_flush ⟨false, false, none, [1, 2], [], none⟩

theorem connect_resets_shutdown_flag_witness :
    ((connect (disconnect sessionInit).1 true).1).isShutdown = false ∧
    (reconnectStep ((connect (disconnect sessionInit).1 true).1)).2 = true :=
  connect_resets_shutdown_flag sessionInit true

theorem disconnect_unregisters_destroys_idempotent_witness :
    ((disconnect ⟨false, true, some true, [5], [3, 4], some [3, 4]⟩).1).assigned = none ∧
    Ev.destroyPlayer 3 ∈ (disconnect ⟨false, true, some true, [5], [3, 4], some [3, 4]⟩).2 ∧
    disconnect (disconnect ⟨false, true, some true, [5], [3, 4], some [3, 4]⟩).1 =
      ((disconnect ⟨false, true, some true, [5], [3, 4], some [3, 4]⟩).1, []) :=
  ⟨(disconnect_unregisters_destroys_idempotent
      ⟨false, true, some true, [5], [3, 4], some [3, 4]⟩).1,
   (disconnect_unregisters_destroys_idempotent
      ⟨false, true, some true, [5], [3, 4], some [3, 4]⟩).2.2.1 3 (by decide),
   (disconnect_unregisters_destroys_idempotent
      ⟨false, true, some true, [5], [3, 4], some [3, 4]⟩).2.2.2⟩

theorem multiTryConnect_retry_and_abort_witness :
    multiTryConnect 1 (List.replicate 2 AttemptOutcome.oserror) = MTCResult.pending ∧
    multiTryConnect 1 (List.replicate 2 AttemptOutcome.oserror ++
      AttemptOutcome.invalidStatus :: []) = MTCResult.returnedNone (1 + 2) ∧
    multiTryConnect 1 (List.replicate 2 AttemptOutcome.oserror ++
      AttemptOutcome.success :: []) = MTCResult.connected (1 + 2) :=
  ⟨multiTryConnect_retry_and_abort.1 2,
   multiTryConnect_retry_and_abort.2.2.1 2 [],
   multiTryConnect_retry_and_abort.2.2.2 2 []⟩

theorem raceResult_timeout_characterization_witness :
    (raceResult true MTCResult.pending (MTCResult.returnedNone 1) = RaceOutcome.timeoutError ↔
      ((isConnected MTCResult.pending = false ∧
        isConnected (MTCResult.returnedNone 1) = false) ∧
        (true = true ∨ (isReturnedNone MTCResult.pending = true ∧
          isReturnedNone (MTCResult.returnedNone 1) = true)))) ∧
    connect sessionInit false =
      ({ sessionInit with isShutdown := false }, [], ConnectOutcome.timeoutRaised) :=
  ⟨raceResult_timeout_characterization.1 true MTCResult.pending (MTCResult.returnedNone 1),
   raceResult_timeout_characterization.2 sessionInit⟩
